/-
Verification of the CineAI multi-role retrieval engine.

This file shallowly embeds the retrieval core of the repository:
  * backend/services/vector_db_service.py  (index construction)
  * backend/services/retriever_service.py  (search, query expansion,
    multi-query merge, answer synthesis)
  * backend/main.py                        (chat endpoint top_k handling)

External collaborators (the embedding model, the FAISS index, the answer
generator) are abstracted as parameters: the embedding call becomes a pair
of a success predicate and a value function, a built index's ranked search
output becomes an input list, and the answer-generation call becomes an
Except value.  Similarity scores (floats in the source) are modeled as
integers, since the retrieval logic only ever compares them.

Python string operations used by the source (strip, lower, startswith,
replace, split, substring containment, isdigit/int) are re-implemented
here structurally over character lists so that every definition evaluates
inside the kernel.
-/
import Mathlib

namespace CineAI

/-! ### Python-style string primitives -/

/-- Python str.strip on a character list: drop whitespace at both ends. -/
def pyStripL (l : List Char) : List Char :=
  ((l.dropWhile Char.isWhitespace).reverse.dropWhile Char.isWhitespace).reverse

/-- Python str.strip. -/
def pyStrip (s : String) : String :=
  String.mk (pyStripL s.data)

/-- Python str.lower (ASCII). -/
def pyLower (s : String) : String :=
  String.mk (s.data.map Char.toLower)

/-- Python str.startswith. -/
def pyStartsWith (s p : String) : Bool :=
  p.data.isPrefixOf s.data

/-- Python substring containment, the binary in operator on strings. -/
def pyContains (s p : String) : Bool :=
  decide (p.data <:+: s.data)

/-- Split a character list on a single separator character. -/
def splitCharL (sep : Char) : List Char → List (List Char)
  | [] => [[]]
  | c :: rest =>
    let r := splitCharL sep rest
    if c = sep then [] :: r
    else
      match r with
      | [] => [[c]]
      | h :: t => (c :: h) :: t

/-- Python str.split with a one-character separator. -/
def pySplit (s : String) (sep : Char) : List String :=
  (splitCharL sep s.data).map String.mk

/-- Fuel-indexed replacement of every occurrence of pat by rep.
The fuel equals the input length, which suffices because every step
consumes at least one character (the source never calls replace with an
empty pattern). -/
def replaceAux (pat rep : List Char) : Nat → List Char → List Char
  | _, [] => []
  | 0, s => s
  | fuel + 1, c :: rest =>
    if pat ≠ [] ∧ pat.isPrefixOf (c :: rest) then
      rep ++ replaceAux pat rep fuel (List.drop pat.length (c :: rest))
    else
      c :: replaceAux pat rep fuel rest

/-- Python str.replace (replaces every occurrence). -/
def pyReplace (s pat rep : String) : String :=
  String.mk (replaceAux pat.data rep.data s.data.length s.data)

/-- Python str.isdigit restricted to ASCII digits (true on non-empty
all-digit strings). -/
def pyIsDigit (s : String) : Bool :=
  !s.data.isEmpty && s.data.all Char.isDigit

/-- Numeric value of an all-digit character list (Python int on an
isdigit-validated string). -/
def digitsToNat (l : List Char) : Nat :=
  l.foldl (fun n c => n * 10 + (c.toNat - 48)) 0

/-- Left zero-padding to a given width. -/
def padZeros (w : Nat) (s : String) : String :=
  String.mk (List.replicate (w - s.data.length) '0' ++ s.data)

/-- Python format spec 0wd applied to an integer: zero-pad the digits to
width w, placing a minus sign (counted in the width) before the padding
for negative values. -/
def pyFormatInt (w : Nat) (n : Int) : String :=
  if n < 0 then "-" ++ padZeros (w - 1) (toString n.natAbs)
  else padZeros w (toString n.natAbs)

/-! ### Data model

FrameDescriptor rows arrive as JSON dictionaries; the fields the retrieval
core reads are embedded as structure fields.  Fields read through
dict.get with a default are Option-valued here.  The nested llava_json
payload is only ever copied into results (never inspected), so it is
flattened to the four slices the retrieval code extracts. -/

/-- Slices of the per-frame llava_json payload that the retrieval code
copies into results. scene_summary stands for
llava_json.content_info.scene_summary. -/
structure LlavaJson where
  technical_info : String
  content_info : String
  production_info : String
  scene_summary : String
deriving DecidableEq, Repr, Inhabited

/-- One frame descriptor from the analysis output
(analysis_output.frames entries read by build_vector_database). -/
structure Frame where
  /-- frame.get with key second; the builder defaults a missing value to
  the frame's 0-based position. -/
  second? : Option Int
  /-- frame.get with key scene_id, defaulted to scene_000. -/
  scene_id? : Option String
  embedding_text_technical : String
  embedding_text_content : String
  llava_json : LlavaJson
deriving DecidableEq, Repr, Inhabited

/-- One row of the shared metadata table written by
build_vector_database. -/
structure MetaRow where
  index : Nat
  second : Int
  scene_id : String
  frame_path : String
  embedding_text_technical : String
  embedding_text_content : String
  llava_json : LlavaJson
deriving DecidableEq, Repr, Inhabited

/-! ### VectorDBService: file names and index construction -/

/-- VectorDBService.VECTOR_DB_DIR. -/
def VECTOR_DB_DIR : String := "vector_databases"

/-- VectorDBService.get_vector_db_file: path of a role's index file. -/
def get_vector_db_file (video_id role : String) : String :=
  VECTOR_DB_DIR ++ "/" ++ video_id ++ "_" ++ role ++ ".index"

/-- VectorDBService.get_metadata_file: path of the shared metadata file. -/
def get_metadata_file (video_id : String) : String :=
  VECTOR_DB_DIR ++ "/" ++ video_id ++ "_metadata.json"

/-- The metadata row appended for a surviving frame: pos is the current
length of the embedding lists, j the frame's 0-based position in the
analysis output (enumerate(frames, 1) minus one). -/
def mkMetaRow (frames_dir : String) (pos : Nat) (j : Nat) (f : Frame) : MetaRow :=
  let second := f.second?.getD (j : Int)
  { index := pos
    second := second
    scene_id := f.scene_id?.getD "scene_000"
    frame_path := frames_dir ++ "/" ++ ("frame_" ++ pyFormatInt 5 second ++ ".jpg")
    embedding_text_technical := f.embedding_text_technical
    embedding_text_content := f.embedding_text_content
    llava_json := f.llava_json }

/-- The frame loop of build_vector_database.  get_embedding either
returns a vector or raises; it is modeled by the success predicate
embedOk together with the value function embed.  A frame is skipped when
either embedding text is empty, or when either embedding call fails
(the except-continue branch); otherwise both vectors and the metadata
row are appended. -/
def buildLoop (embedOk : String → Bool) (embed : String → α) (frames_dir : String) :
    List α → List α → List MetaRow → List (Nat × Frame) →
    List α × List α × List MetaRow
  | tacc, cacc, macc, [] => (tacc, cacc, macc)
  | tacc, cacc, macc, (j, f) :: rest =>
    if f.embedding_text_technical = "" ∨ f.embedding_text_content = "" then
      buildLoop embedOk embed frames_dir tacc cacc macc rest
    else if !embedOk f.embedding_text_technical then
      buildLoop embedOk embed frames_dir tacc cacc macc rest
    else if !embedOk f.embedding_text_content then
      buildLoop embedOk embed frames_dir tacc cacc macc rest
    else
      buildLoop embedOk embed frames_dir
        (tacc ++ [embed f.embedding_text_technical])
        (cacc ++ [embed f.embedding_text_content])
        (macc ++ [mkMetaRow frames_dir tacc.length j f])
        rest

/-- VectorDBService.build_vector_database, returning the technical
embedding list, the content embedding list and the shared metadata table
(the two FAISS indices insert these embedding lists in order, so vector
position i in a role's index is position i in that role's list). -/
def build_vector_database (embedOk : String → Bool) (embed : String → α)
    (frames_dir : String) (frames : List Frame) :
    Except String (List α × List α × List MetaRow) :=
  if frames.isEmpty then .error "No frames found in analysis output"
  else
    let out := buildLoop embedOk embed frames_dir [] [] [] frames.enum
    if out.1.isEmpty ∨ out.2.1.isEmpty then .error "No embeddings generated"
    else .ok out

/-- Whether the build keeps a frame: both embedding texts present and
both embedding calls succeed. -/
def buildKeeps (embedOk : String → Bool) (f : Frame) : Bool :=
  !(f.embedding_text_technical = "" ∨ f.embedding_text_content = "" : Bool)
    && embedOk f.embedding_text_technical && embedOk f.embedding_text_content

/-- The enumerated frames that survive the build's filtering. -/
def survivors (embedOk : String → Bool) (frames : List Frame) : List (Nat × Frame) :=
  frames.enum.filter (fun jf => buildKeeps embedOk jf.2)

/-- Metadata rows for a list of surviving enumerated frames, with the
index field counting from start. -/
def metaRows (frames_dir : String) (start : Nat) : List (Nat × Frame) → List MetaRow
  | [] => []
  | (j, f) :: rest => mkMetaRow frames_dir start j f :: metaRows frames_dir (start + 1) rest

theorem metaRows_length (frames_dir : String) (start : Nat) (l : List (Nat × Frame)) :
    (metaRows frames_dir start l).length = l.length := by
  induction l generalizing start with
  | nil => rfl
  | cons hd tl ih => cases hd; simp [metaRows, ih]

theorem metaRows_getElem? (frames_dir : String) (start : Nat) (l : List (Nat × Frame))
    (i : Nat) :
    (metaRows frames_dir start l)[i]? =
      (l[i]?).map (fun jf => mkMetaRow frames_dir (start + i) jf.1 jf.2) := by
  induction l generalizing start i with
  | nil => simp [metaRows]
  | cons hd tl ih =>
    cases hd with
    | mk j f =>
      cases i with
      | zero => simp [metaRows]
      | succ n =>
        simp only [metaRows, List.getElem?_cons_succ]
        rw [ih (start + 1) n]
        have harith : start + 1 + n = start + (n + 1) := by omega
        rw [harith]

/-- Characterization of the build loop: it appends, to each accumulator,
the corresponding projection of the surviving suffix frames. -/
theorem buildLoop_eq (embedOk : String → Bool) (embed : String → α) (frames_dir : String)
    (l : List (Nat × Frame)) :
    ∀ tacc cacc macc,
      buildLoop embedOk embed frames_dir tacc cacc macc l =
        (tacc ++ (l.filter (fun jf => buildKeeps embedOk jf.2)).map
            (fun jf => embed jf.2.embedding_text_technical),
         cacc ++ (l.filter (fun jf => buildKeeps embedOk jf.2)).map
            (fun jf => embed jf.2.embedding_text_content),
         macc ++ metaRows frames_dir tacc.length
            (l.filter (fun jf => buildKeeps embedOk jf.2))) := by
  induction l with
  | nil => intro tacc cacc macc; simp [buildLoop, metaRows]
  | cons hd tl ih =>
    intro tacc cacc macc
    cases hd with
    | mk j f =>
      by_cases hkeep : buildKeeps embedOk f
      · have h1 : ¬ (f.embedding_text_technical = "" ∨ f.embedding_text_content = "") := by
          simp only [buildKeeps, Bool.and_eq_true, Bool.not_eq_true',
            decide_eq_false_iff_not] at hkeep
          exact hkeep.1.1
        have h2 : embedOk f.embedding_text_technical = true := by
          simp only [buildKeeps, Bool.and_eq_true] at hkeep
          exact hkeep.1.2
        have h3 : embedOk f.embedding_text_content = true := by
          simp only [buildKeeps, Bool.and_eq_true] at hkeep
          exact hkeep.2
        simp only [buildLoop, if_neg h1, h2, h3, Bool.not_true, Bool.false_eq_true,
          if_false]
        rw [ih]
        simp only [List.filter_cons, hkeep, if_pos]
        simp [metaRows, List.append_assoc]
      · have hfilter : List.filter (fun jf => buildKeeps embedOk jf.2) ((j, f) :: tl) =
            List.filter (fun jf => buildKeeps embedOk jf.2) tl := by
          simp [List.filter_cons, hkeep]
        by_cases h1 : f.embedding_text_technical = "" ∨ f.embedding_text_content = ""
        · simp only [buildLoop, if_pos h1]
          rw [ih, hfilter]
        · rcases hb : embedOk f.embedding_text_technical with _ | _
          · simp only [buildLoop, if_neg h1, hb, Bool.not_false, if_true]
            rw [ih, hfilter]
          · have hc : embedOk f.embedding_text_content = false := by
              by_contra hc
              apply hkeep
              simp only [buildKeeps, Bool.and_eq_true, Bool.not_eq_true',
                decide_eq_false_iff_not]
              exact ⟨⟨h1, hb⟩, by simpa using hc⟩
            simp only [buildLoop, if_neg h1, hb, hc, Bool.not_true, Bool.false_eq_true,
              if_false, Bool.not_false, if_true]
            rw [ih, hfilter]

/-- On success, the build's three outputs are the three projections of
the survivor list. -/
theorem build_eq_survivors (embedOk : String → Bool) (embed : String → α)
    (frames_dir : String) (frames : List Frame)
    (tv cv : List α) (mr : List MetaRow)
    (h : build_vector_database embedOk embed frames_dir frames = .ok (tv, cv, mr)) :
    tv = (survivors embedOk frames).map (fun jf => embed jf.2.embedding_text_technical) ∧
    cv = (survivors embedOk frames).map (fun jf => embed jf.2.embedding_text_content) ∧
    mr = metaRows frames_dir 0 (survivors embedOk frames) := by
  unfold build_vector_database at h
  by_cases hempty : frames.isEmpty
  · simp [hempty] at h
  · simp only [hempty, if_false] at h
    rw [buildLoop_eq] at h
    simp only [List.nil_append, List.length_nil] at h
    have hs : survivors embedOk frames =
        List.filter (fun jf => buildKeeps embedOk jf.2) frames.enum := rfl
    rw [← hs] at h
    by_cases hout : ((survivors embedOk frames).map
        (fun jf => embed jf.2.embedding_text_technical)).isEmpty = true ∨
        ((survivors embedOk frames).map
        (fun jf => embed jf.2.embedding_text_content)).isEmpty = true
    · rw [if_pos hout] at h
      exact absurd h (by simp)
    · rw [if_neg hout] at h
      have hinj := Except.ok.inj h
      refine ⟨?_, ?_, ?_⟩
      · exact (congrArg Prod.fst hinj).symm
      · exact (congrArg (fun p => p.2.1) hinj).symm
      · exact (congrArg (fun p => p.2.2) hinj).symm

/-- C1: After every successful index build for a video, every role's
similarity index contains the same number of vectors N, equal to the
length of the shared metadata table, and position i denotes the same
underlying frame in every role's index and in the metadata table: the
vector at position i of the technical index and the vector at position i
of the content index are the embeddings of the two texts of one frame of
the analysis output, and row i of the metadata table is built from that
same frame (with index field i). -/
theorem build_role_indices_aligned (embedOk : String → Bool) (embed : String → α)
    (frames_dir : String) (frames : List Frame) (tv cv : List α) (mr : List MetaRow)
    (h : build_vector_database embedOk embed frames_dir frames = .ok (tv, cv, mr)) :
    tv.length = mr.length ∧ cv.length = mr.length ∧
    ∀ i, i < mr.length →
      ∃ j f, frames[j]? = some f ∧
        tv[i]? = some (embed f.embedding_text_technical) ∧
        cv[i]? = some (embed f.embedding_text_content) ∧
        mr[i]? = some (mkMetaRow frames_dir i j f) := by
  obtain ⟨ht, hc, hm⟩ := build_eq_survivors embedOk embed frames_dir frames tv cv mr h
  subst ht; subst hc; subst hm
  refine ⟨by simp [metaRows_length], by simp [metaRows_length], ?_⟩
  intro i hi
  rw [metaRows_length] at hi
  have hget : (survivors embedOk frames)[i]? = some (survivors embedOk frames)[i] :=
    List.getElem?_eq_getElem hi
  obtain ⟨j, f, hjf⟩ : ∃ j f, (survivors embedOk frames)[i] = (j, f) := ⟨_, _, rfl⟩
  refine ⟨j, f, ?_, ?_, ?_, ?_⟩
  · have hmem : (j, f) ∈ survivors embedOk frames := by
      rw [← hjf]; exact List.getElem_mem hi
    exact List.mk_mem_enum_iff_getElem?.mp (List.mem_of_mem_filter hmem)
  · rw [List.getElem?_map, hget, hjf]; rfl
  · rw [List.getElem?_map, hget, hjf]; rfl
  · rw [metaRows_getElem?, hget, hjf]
    simp

/-- Witness for C1 at a concrete one-frame build. -/
theorem build_role_indices_aligned_witness :
    (build_vector_database (fun _ => true) String.length "frames/vid"
        [⟨some 7, some "scene_001", "tech text", "content text", ⟨"ti", "ci", "pi", "ss"⟩⟩] =
      .ok ([9], [12],
        [⟨0, 7, "scene_001", "frames/vid/frame_00007.jpg", "tech text", "content text",
          ⟨"ti", "ci", "pi", "ss"⟩⟩])) ∧
    (([9] : List Nat).length =
        ([⟨0, 7, "scene_001", "frames/vid/frame_00007.jpg", "tech text", "content text",
          ⟨"ti", "ci", "pi", "ss"⟩⟩] : List MetaRow).length ∧
      ([12] : List Nat).length =
        ([⟨0, 7, "scene_001", "frames/vid/frame_00007.jpg", "tech text", "content text",
          ⟨"ti", "ci", "pi", "ss"⟩⟩] : List MetaRow).length ∧
      ∀ i, i < ([⟨0, 7, "scene_001", "frames/vid/frame_00007.jpg", "tech text",
            "content text", ⟨"ti", "ci", "pi", "ss"⟩⟩] : List MetaRow).length →
        ∃ j f, ([⟨some 7, some "scene_001", "tech text", "content text",
              ⟨"ti", "ci", "pi", "ss"⟩⟩] : List Frame)[j]? = some f ∧
          ([9] : List Nat)[i]? = some (String.length f.embedding_text_technical) ∧
          ([12] : List Nat)[i]? = some (String.length f.embedding_text_content) ∧
          ([⟨0, 7, "scene_001", "frames/vid/frame_00007.jpg", "tech text", "content text",
              ⟨"ti", "ci", "pi", "ss"⟩⟩] : List MetaRow)[i]? =
            some (mkMetaRow "frames/vid" i j f)) :=
  ⟨rfl,
    build_role_indices_aligned (fun _ => true) String.length "frames/vid"
      [⟨some 7, some "scene_001", "tech text", "content text", ⟨"ti", "ci", "pi", "ss"⟩⟩]
      [9] [12]
      [⟨0, 7, "scene_001", "frames/vid/frame_00007.jpg", "tech text", "content text",
        ⟨"ti", "ci", "pi", "ss"⟩⟩] rfl⟩

/-- C5: During index building, every frame whose technical or content
embedding text is empty is dropped entirely: all three build outputs are
the projections of one shared survivor list, survivors never contain a
frame with an empty embedding text, and a frame of the analysis output
with an empty technical or content text is excluded from the survivor
list (hence contributes no vector to either role's index and no metadata
row, identically for all roles). -/
theorem build_drops_missing_text_frames (embedOk : String → Bool) (embed : String → α)
    (frames_dir : String) (frames : List Frame) (tv cv : List α) (mr : List MetaRow)
    (h : build_vector_database embedOk embed frames_dir frames = .ok (tv, cv, mr)) :
    tv = (survivors embedOk frames).map (fun jf => embed jf.2.embedding_text_technical) ∧
    cv = (survivors embedOk frames).map (fun jf => embed jf.2.embedding_text_content) ∧
    mr = metaRows frames_dir 0 (survivors embedOk frames) ∧
    (∀ jf ∈ survivors embedOk frames,
      jf.2.embedding_text_technical ≠ "" ∧ jf.2.embedding_text_content ≠ "") ∧
    (∀ j f, frames[j]? = some f →
      f.embedding_text_technical = "" ∨ f.embedding_text_content = "" →
      (j, f) ∉ survivors embedOk frames) := by
  obtain ⟨ht, hc, hm⟩ := build_eq_survivors embedOk embed frames_dir frames tv cv mr h
  refine ⟨ht, hc, hm, ?_, ?_⟩
  · intro jf hjf
    have hkeep : buildKeeps embedOk jf.2 = true := (List.mem_filter.mp hjf).2
    simp only [buildKeeps, Bool.and_eq_true, Bool.not_eq_true',
      decide_eq_false_iff_not] at hkeep
    exact ⟨fun he => hkeep.1.1 (Or.inl he), fun he => hkeep.1.1 (Or.inr he)⟩
  · intro j f _ hmiss hmem
    have hkeep : buildKeeps embedOk (j, f).2 = true := (List.mem_filter.mp hmem).2
    simp only [buildKeeps, Bool.and_eq_true, Bool.not_eq_true',
      decide_eq_false_iff_not] at hkeep
    exact hkeep.1.1 hmiss

/-- Witness for C5: a two-frame build where the frame with an empty
content text is dropped from all outputs. -/
theorem build_drops_missing_text_frames_witness :
    (build_vector_database (fun _ => true) String.length "d"
        [⟨some 1, none, "a", "", ⟨"", "", "", ""⟩⟩,
         ⟨some 2, none, "b", "bb", ⟨"", "", "", ""⟩⟩] =
      .ok ([1], [2],
        [⟨0, 2, "scene_000", "d/frame_00002.jpg", "b", "bb", ⟨"", "", "", ""⟩⟩])) ∧
    (([1] : List Nat) =
        (survivors (fun _ => true)
          [⟨some 1, none, "a", "", ⟨"", "", "", ""⟩⟩,
           ⟨some 2, none, "b", "bb", ⟨"", "", "", ""⟩⟩]).map
          (fun jf => String.length jf.2.embedding_text_technical) ∧
      ([2] : List Nat) =
        (survivors (fun _ => true)
          [⟨some 1, none, "a", "", ⟨"", "", "", ""⟩⟩,
           ⟨some 2, none, "b", "bb", ⟨"", "", "", ""⟩⟩]).map
          (fun jf => String.length jf.2.embedding_text_content) ∧
      ([⟨0, 2, "scene_000", "d/frame_00002.jpg", "b", "bb", ⟨"", "", "", ""⟩⟩] : List MetaRow) =
        metaRows "d" 0 (survivors (fun _ => true)
          [⟨some 1, none, "a", "", ⟨"", "", "", ""⟩⟩,
           ⟨some 2, none, "b", "bb", ⟨"", "", "", ""⟩⟩]) ∧
      (∀ jf ∈ survivors (fun _ => true)
          [⟨some 1, none, "a", "", ⟨"", "", "", ""⟩⟩,
           ⟨some 2, none, "b", "bb", ⟨"", "", "", ""⟩⟩],
        jf.2.embedding_text_technical ≠ "" ∧ jf.2.embedding_text_content ≠ "") ∧
      (∀ j f, ([⟨some 1, none, "a", "", ⟨"", "", "", ""⟩⟩,
            ⟨some 2, none, "b", "bb", ⟨"", "", "", ""⟩⟩] : List Frame)[j]? = some f →
        f.embedding_text_technical = "" ∨ f.embedding_text_content = "" →
        (j, f) ∉ survivors (fun _ => true)
          [⟨some 1, none, "a", "", ⟨"", "", "", ""⟩⟩,
           ⟨some 2, none, "b", "bb", ⟨"", "", "", ""⟩⟩])) :=
  ⟨rfl,
    build_drops_missing_text_frames (fun _ => true) String.length "d"
      [⟨some 1, none, "a", "", ⟨"", "", "", ""⟩⟩,
       ⟨some 2, none, "b", "bb", ⟨"", "", "", ""⟩⟩]
      [1] [2]
      [⟨0, 2, "scene_000", "d/frame_00002.jpg", "b", "bb", ⟨"", "", "", ""⟩⟩]
      rfl⟩

/-! ### C2: files written by the build, and index loading -/

/-- The index/metadata files written by a successful
build_vector_database run, in write order: the technical index, the
content index, then the shared metadata file. -/
def written_files (video_id : String) : List String :=
  [get_vector_db_file video_id "technical",
   get_vector_db_file video_id "content",
   get_metadata_file video_id]

/-- build_vector_database viewed through the filesystem: on success the
three files above exist, on failure nothing was persisted. -/
def build_and_write (embedOk : String → Bool) (embed : String → α)
    (frames_dir video_id : String) (frames : List Frame) : Except String (List String) :=
  (build_vector_database embedOk embed frames_dir frames).map (fun _ => written_files video_id)

/-- Failure mode of RetrieverService._load_index. -/
inductive LoadErr where
  | fileNotFound
deriving DecidableEq, Repr

/-- The file-existence gate of RetrieverService._load_index: both the
role's index file and the metadata file must exist, else
FileNotFoundError is raised. -/
def load_index_check (fs : List String) (video_id role : String) : Except LoadErr Unit :=
  if get_vector_db_file video_id role ∈ fs ∧ get_metadata_file video_id ∈ fs then .ok ()
  else .error .fileNotFound

/-- The role-to-index mapping at the top of RetrieverService.search. -/
def roleToIndexType (role : String) : String :=
  if role = "director" then "technical"
  else if role = "producer" then "production"
  else "content"

theorem length_vector_db_file (v r : String) :
    (get_vector_db_file v r).length = v.length + r.length + 24 := by
  have h1 : ("vector_databases" : String).length = 16 := rfl
  have h2 : ("/" : String).length = 1 := rfl
  have h3 : ("_" : String).length = 1 := rfl
  have h4 : (".index" : String).length = 6 := rfl
  simp only [get_vector_db_file, VECTOR_DB_DIR, String.length_append, h1, h2, h3, h4]
  omega

theorem length_metadata_file (v : String) :
    (get_metadata_file v).length = v.length + 31 := by
  have h1 : ("vector_databases" : String).length = 16 := rfl
  have h2 : ("/" : String).length = 1 := rfl
  have h3 : ("_metadata.json" : String).length = 14 := rfl
  simp only [get_metadata_file, VECTOR_DB_DIR, String.length_append, h1, h2, h3]
  omega

/-- C2: build_vector_database creates index files only for the roles
technical and content and never writes a production index file, so for
every video whose indices were built by this operation, the _load_index
gate on the producer role (which search maps to the production index)
fails with the not-found error. -/
theorem producer_search_fails_after_build (embedOk : String → Bool) (embed : String → α)
    (frames_dir video_id : String) (frames : List Frame) (fs : List String)
    (h : build_and_write embedOk embed frames_dir video_id frames = .ok fs) :
    get_vector_db_file video_id "production" ∉ fs ∧
    load_index_check fs video_id (roleToIndexType "producer") = .error .fileNotFound := by
  have hfs : fs = written_files video_id := by
    unfold build_and_write at h
    cases hb : build_vector_database embedOk embed frames_dir frames with
    | error e => rw [hb] at h; exact absurd h (by simp [Except.map])
    | ok out => rw [hb] at h; simpa [Except.map] using h.symm
  subst hfs
  have hnotin : get_vector_db_file video_id "production" ∉ written_files video_id := by
    intro hmem
    simp only [written_files, List.mem_cons, List.mem_singleton, List.not_mem_nil,
      or_false] at hmem
    rcases hmem with heq | heq | heq
    · have := congrArg String.length heq
      rw [length_vector_db_file, length_vector_db_file] at this
      have h10 : ("production" : String).length = 10 := rfl
      have h9 : ("technical" : String).length = 9 := rfl
      rw [h10, h9] at this
      omega
    · have := congrArg String.length heq
      rw [length_vector_db_file, length_vector_db_file] at this
      have h10 : ("production" : String).length = 10 := rfl
      have h7 : ("content" : String).length = 7 := rfl
      rw [h10, h7] at this
      omega
    · have := congrArg String.length heq
      rw [length_vector_db_file, length_metadata_file] at this
      have h10 : ("production" : String).length = 10 := rfl
      rw [h10] at this
      omega
  refine ⟨hnotin, ?_⟩
  have hrole : roleToIndexType "producer" = "production" := rfl
  rw [hrole]
  unfold load_index_check
  rw [if_neg]
  intro hc
  exact hnotin hc.1

/-- Witness for C2 at a concrete successful one-frame build. -/
theorem producer_search_fails_after_build_witness :
    (build_and_write (fun _ => true) String.length "d" "vid"
        [⟨some 0, none, "a", "b", ⟨"", "", "", ""⟩⟩] =
      .ok ["vector_databases/vid_technical.index",
           "vector_databases/vid_content.index",
           "vector_databases/vid_metadata.json"]) ∧
    (get_vector_db_file "vid" "production" ∉
        ["vector_databases/vid_technical.index",
         "vector_databases/vid_content.index",
         "vector_databases/vid_metadata.json"] ∧
      load_index_check
        ["vector_databases/vid_technical.index",
         "vector_databases/vid_content.index",
         "vector_databases/vid_metadata.json"] "vid" (roleToIndexType "producer") =
        .error .fileNotFound) :=
  ⟨rfl,
    producer_search_fails_after_build (fun _ => true) String.length "d" "vid"
      [⟨some 0, none, "a", "b", ⟨"", "", "", ""⟩⟩]
      ["vector_databases/vid_technical.index",
       "vector_databases/vid_content.index",
       "vector_databases/vid_metadata.json"] rfl⟩

/-! ### RetrieverService._expand_query -/

/-- Emotion synonym table of _expand_query. -/
def emotion_map : List (String × List String) :=
  [("romantic", ["romantic", "intimate", "loving", "tender", "affectionate", "passionate"]),
   ("emotional", ["emotional", "touching", "moving", "heartfelt", "poignant"]),
   ("happy", ["happy", "joyful", "cheerful", "content", "pleased", "delighted"]),
   ("sad", ["sad", "melancholic", "sorrowful", "upset", "unhappy", "grieving"]),
   ("tense", ["tense", "anxious", "nervous", "worried", "stressed", "uneasy"]),
   ("peaceful", ["peaceful", "calm", "serene", "tranquil", "relaxed", "quiet"]),
   ("angry", ["angry", "furious", "rage", "mad", "irritated", "hostile"])]

/-- Location synonym table of _expand_query. -/
def location_map : List (String × List String) :=
  [("beach", ["beach", "seaside", "ocean", "shore", "coast", "waterfront"]),
   ("woods", ["woods", "forest", "trees", "woodland", "nature"]),
   ("city", ["city", "urban", "street", "downtown", "metropolitan"]),
   ("indoor", ["indoor", "inside", "interior", "room"])]

/-- Action synonym table of _expand_query. -/
def action_map : List (String × List String) :=
  [("walking", ["walking", "strolling", "pacing", "moving"]),
   ("running", ["running", "sprinting", "rushing", "hurrying"]),
   ("fighting", ["fighting", "combat", "battle", "struggle"]),
   ("talking", ["talking", "speaking", "conversing", "discussing"])]

/-- One expansion pass of _expand_query over a synonym table: for every
base term contained in the lowered query, append the replacement by each
of the first k synonyms, skipping replacements equal to the lowered
query itself. -/
def tableExpansions (query_lower : String) (k : Nat)
    (tbl : List (String × List String)) : List String :=
  tbl.foldl (fun acc bs =>
    if pyContains query_lower bs.1 then
      acc ++ (bs.2.take k).filterMap (fun syn =>
        let expanded := pyReplace query_lower bs.1 syn
        if expanded ≠ query_lower then some expanded else none)
    else acc) []

/-- The order-preserving dedup pass of _expand_query (seen-set plus
output list). -/
def dedupAux (seen : List String) : List String → List String
  | [] => []
  | x :: xs => if x ∈ seen then dedupAux seen xs else x :: dedupAux (x :: seen) xs

/-- RetrieverService._expand_query. The role argument is accepted and
unused, as in the source. -/
def expand_query (query : String) (role : String) : List String :=
  let query_lower := pyLower query
  let expansions := [query] ++ tableExpansions query_lower 3 emotion_map
    ++ tableExpansions query_lower 2 location_map
    ++ tableExpansions query_lower 2 action_map
  (dedupAux [] expansions).take 5

theorem dedupAux_not_mem_seen :
    ∀ (l seen : List String) (x : String), x ∈ dedupAux seen l → x ∉ seen := by
  intro l
  induction l with
  | nil => intro seen x hx; simp [dedupAux] at hx
  | cons hd tl ih =>
    intro seen x hx
    by_cases hmem : hd ∈ seen
    · rw [dedupAux, if_pos hmem] at hx
      exact ih seen x hx
    · rw [dedupAux, if_neg hmem] at hx
      rcases List.mem_cons.mp hx with heq | htl
      · subst heq; exact hmem
      · intro hxseen
        exact ih (hd :: seen) x htl (List.mem_cons_of_mem hd hxseen)

theorem dedupAux_nodup : ∀ (l seen : List String), (dedupAux seen l).Nodup := by
  intro l
  induction l with
  | nil => intro seen; simp [dedupAux]
  | cons hd tl ih =>
    intro seen
    by_cases hmem : hd ∈ seen
    · rw [dedupAux, if_pos hmem]; exact ih seen
    · rw [dedupAux, if_neg hmem]
      refine List.nodup_cons.mpr ⟨?_, ih (hd :: seen)⟩
      intro hhd
      exact dedupAux_not_mem_seen tl (hd :: seen) hd hhd (List.mem_cons_self hd seen)

/-- C7: for every query string and every role, query expansion returns
an ordered list of at most 5 variants whose first element is the
original query and which contains no duplicate entries. -/
theorem expand_query_shape (query role : String) :
    (expand_query query role).length ≤ 5 ∧
    (expand_query query role).head? = some query ∧
    (expand_query query role).Nodup := by
  refine ⟨List.length_take_le 5 _, ?_, (List.take_sublist _ _).nodup (dedupAux_nodup _ _)⟩
  show (List.take 5 (dedupAux [] ([query] ++ _))).head? = some query
  rw [List.singleton_append, dedupAux, if_neg (List.not_mem_nil query)]
  rfl

/-! ### RetrieverService.search -/

/-- One search result dictionary, as assembled in RetrieverService.search.
role_info holds the role-specific llava_json slice (technical_info,
production_info or content_info). -/
structure SearchResult where
  second : Int
  frame_path : String
  score : Int
  timestamp : String
  scene_id : String
  role_info : String
  embedding_text : String
  scene_summary : String
deriving DecidableEq, Repr, Inhabited

/-- RetrieverService._format_timestamp: MM:SS with Python floor division
and modulo. -/
def format_timestamp (seconds : Int) : String :=
  pyFormatInt 2 (Int.fdiv seconds 60) ++ ":" ++ pyFormatInt 2 (Int.fmod seconds 60)

/-- The result dictionary built for one accepted candidate.  For the
producer role the embedding_text field reads the metadata key
embedding_text_production, which the builder never writes, so its
dict.get default (the empty string) is always taken. -/
def mkSearchResult (role : String) (score : Int) (meta : MetaRow) : SearchResult :=
  { second := meta.second
    frame_path := meta.frame_path
    score := score
    timestamp := format_timestamp meta.second
    scene_id := meta.scene_id
    role_info :=
      if role = "director" then meta.llava_json.technical_info
      else if role = "producer" then meta.llava_json.production_info
      else meta.llava_json.content_info
    embedding_text :=
      if role = "director" then meta.embedding_text_technical
      else if role = "producer" then ""
      else meta.embedding_text_content
    scene_summary := meta.llava_json.scene_summary }

/-- Stable insertion of x into a list, before the first element y with
le x y. -/
def insertBy (le : α → α → Bool) (x : α) : List α → List α
  | [] => [x]
  | y :: ys => if le x y then x :: y :: ys else y :: insertBy le x ys

/-- Stable insertion sort (models Python list.sort / sorted, whose
stability is irrelevant to the claims proved here because the keys
involved are pairwise distinct where order matters). -/
def sortBy (le : α → α → Bool) : List α → List α
  | [] => []
  | x :: xs => insertBy le x (sortBy le xs)

theorem insertBy_perm (le : α → α → Bool) (x : α) :
    ∀ l : List α, (insertBy le x l).Perm (x :: l) := by
  intro l
  induction l with
  | nil => simp [insertBy]
  | cons y ys ih =>
    rw [insertBy]
    by_cases hle : le x y = true
    · rw [if_pos hle]
    · rw [if_neg hle]
      exact (List.Perm.cons y ih).trans (List.Perm.swap x y ys)

theorem sortBy_perm (le : α → α → Bool) : ∀ l : List α, (sortBy le l).Perm l := by
  intro l
  induction l with
  | nil => simp [sortBy]
  | cons x xs ih =>
    rw [sortBy]
    exact (insertBy_perm le x (sortBy le xs)).trans (List.Perm.cons x ih)

/-- The candidate scan of RetrieverService.search (lines iterating over
zip(scores, indices)): skip negative indices, look the index up in the
metadata table (a Python IndexError on an out-of-range index aborts the
search, modeled as none), skip candidates within 3 seconds of an
already-accepted timestamp, stop once top_k results are accepted. -/
def searchLoop (role : String) (metadata : List MetaRow) (top_k : Nat) :
    List (Int × Int) → List SearchResult → List Int → Option (List SearchResult)
  | [], results, _ => some results
  | (score, idx) :: rest, results, seen =>
    if idx < 0 then searchLoop role metadata top_k rest results seen
    else
      match metadata[idx.toNat]? with
      | none => none
      | some meta =>
        if seen.any (fun ts => (meta.second - ts).natAbs ≤ 3) then
          searchLoop role metadata top_k rest results seen
        else
          let results' := results ++ [mkSearchResult role score meta]
          if top_k ≤ results'.length then some results'
          else searchLoop role metadata top_k rest results' (seen ++ [meta.second])

/-- RetrieverService.search.  The built index and the query embedding
are abstracted into ranking: the index's candidate list in descending
score order (its length is the index's ntotal); index.search with
min(fetch_k, ntotal) returns its prefix.  The accepted results are
finally sorted by second ascending. -/
def search (role : String) (ranking : List (Int × Int)) (metadata : List MetaRow)
    (top_k : Nat) : Option (List SearchResult) :=
  let fetch_k := if role = "producer" then top_k * 3 else top_k * 2
  let candidates := ranking.take (min fetch_k ranking.length)
  (searchLoop role metadata top_k candidates [] []).map
    (sortBy (fun a b => decide (a.second ≤ b.second)))

theorem searchLoop_spec (role : String) (metadata : List MetaRow) (top_k : Nat) :
    ∀ (cands : List (Int × Int)) (results : List SearchResult) (seen : List Int)
      (res : List SearchResult),
      (∀ r ∈ results, r.second ∈ seen) →
      List.Pairwise (fun a b => 3 < (a.second - b.second).natAbs) results →
      (results.length < top_k ∨ (cands = [] ∧ results.length ≤ top_k)) →
      searchLoop role metadata top_k cands results seen = some res →
      res.length ≤ top_k ∧
        List.Pairwise (fun a b => 3 < (a.second - b.second).natAbs) res := by
  intro cands
  induction cands with
  | nil =>
    intro results seen res _ hpair hlen h
    rw [searchLoop] at h
    obtain rfl : results = res := Option.some.inj h
    refine ⟨?_, hpair⟩
    rcases hlen with hlt | ⟨_, hle⟩
    · omega
    · exact hle
  | cons cand rest ih =>
    intro results seen res hseen hpair hlen h
    obtain ⟨score, idx⟩ := cand
    have hlen' : results.length < top_k := by
      rcases hlen with hlt | ⟨habs, _⟩
      · exact hlt
      · exact absurd habs (by simp)
    rw [searchLoop] at h
    by_cases hneg : idx < 0
    · rw [if_pos hneg] at h
      exact ih results seen res hseen hpair (Or.inl hlen') h
    · rw [if_neg hneg] at h
      cases hmeta : metadata[idx.toNat]? with
      | none => rw [hmeta] at h; exact absurd h (by simp)
      | some meta =>
        rw [hmeta] at h
        replace h :
            (if (seen.any fun ts => decide ((meta.second - ts).natAbs ≤ 3)) = true then
              searchLoop role metadata top_k rest results seen
            else if top_k ≤ (results ++ [mkSearchResult role score meta]).length then
              some (results ++ [mkSearchResult role score meta])
            else searchLoop role metadata top_k rest
              (results ++ [mkSearchResult role score meta]) (seen ++ [meta.second])) =
              some res := h
        by_cases hdup : (seen.any fun ts => decide ((meta.second - ts).natAbs ≤ 3)) = true
        · rw [if_pos hdup] at h
          exact ih results seen res hseen hpair (Or.inl hlen') h
        · rw [if_neg hdup] at h
          have hfar : ∀ ts ∈ seen, 3 < (meta.second - ts).natAbs := by
            intro ts hts
            by_contra hle
            apply hdup
            rw [List.any_eq_true]
            exact ⟨ts, hts, by simp only [decide_eq_true_eq]; omega⟩
          have hpair' : List.Pairwise (fun a b => 3 < (a.second - b.second).natAbs)
              (results ++ [mkSearchResult role score meta]) := by
            rw [List.pairwise_append]
            refine ⟨hpair, List.pairwise_singleton _ _, ?_⟩
            intro a ha b hb
            rw [List.mem_singleton] at hb
            subst hb
            have h1 : 3 < (meta.second - a.second).natAbs :=
              hfar a.second (hseen a ha)
            have h2 : (mkSearchResult role score meta).second = meta.second := rfl
            rw [h2]
            omega
          by_cases hstop : top_k ≤ (results ++ [mkSearchResult role score meta]).length
          · rw [if_pos hstop] at h
            obtain rfl := Option.some.inj h
            refine ⟨?_, hpair'⟩
            rw [List.length_append, List.length_singleton]
            rw [List.length_append, List.length_singleton] at hstop
            omega
          · rw [if_neg hstop] at h
            have hseen' : ∀ r ∈ results ++ [mkSearchResult role score meta],
                r.second ∈ seen ++ [meta.second] := by
              intro r hr
              rcases List.mem_append.mp hr with hold | hnew
              · exact List.mem_append_left _ (hseen r hold)
              · rw [List.mem_singleton] at hnew
                subst hnew
                exact List.mem_append_right _ (List.mem_singleton_self _)
            have hlt' : (results ++ [mkSearchResult role score meta]).length < top_k := by
              rw [List.length_append, List.length_singleton] at hstop ⊢
              omega
            exact ih _ _ res hseen' hpair' (Or.inl hlt') h

/-- C4: every result list returned by the single-query search contains
at most top_k results, and the second values of distinct returned
results differ by strictly more than 3. -/
theorem search_results_bounded_and_separated (role : String) (ranking : List (Int × Int))
    (metadata : List MetaRow) (top_k : Nat) (res : List SearchResult)
    (h : search role ranking metadata top_k = some res) :
    res.length ≤ top_k ∧
      List.Pairwise (fun a b => 3 < (a.second - b.second).natAbs) res := by
  replace h :
      (searchLoop role metadata top_k
        (ranking.take (min (if role = "producer" then top_k * 3 else top_k * 2)
          ranking.length)) [] []).map
        (sortBy (fun a b => decide (a.second ≤ b.second))) = some res := h
  cases hloop : searchLoop role metadata top_k
      (ranking.take (min (if role = "producer" then top_k * 3 else top_k * 2)
        ranking.length)) [] [] with
  | none => rw [hloop] at h; exact absurd h (by simp)
  | some res0 =>
    rw [hloop] at h
    obtain rfl : sortBy (fun a b => decide (a.second ≤ b.second)) res0 = res := by
      simpa using h
    have hbase := searchLoop_spec role metadata top_k _ [] [] res0
      (by simp) List.Pairwise.nil ?_ hloop
    · have hperm := sortBy_perm (fun a b => decide (a.second ≤ b.second)) res0
      refine ⟨?_, ?_⟩
      · rw [hperm.length_eq]; exact hbase.1
      · have hsymm : ∀ {x y : SearchResult},
            3 < (x.second - y.second).natAbs → 3 < (y.second - x.second).natAbs := by
          intro x y hxy; omega
        exact (hperm.pairwise_iff hsymm).mpr hbase.2
    · by_cases htk : 0 < top_k
      · exact Or.inl (by simpa using htk)
      · have : top_k = 0 := by omega
        subst this
        exact Or.inr ⟨by simp, by simp⟩

/-- Witness for C4 at a concrete three-candidate search: the candidate
at second 2 is collapsed into the accepted second 0, and the result list
stops at top_k = 2. -/
theorem search_results_bounded_and_separated_witness :
    (search "actor" [(9, 0), (8, 1), (7, 2)]
        [⟨0, 0, "s", "p0", "t0", "c0", ⟨"", "", "", ""⟩⟩,
         ⟨1, 2, "s", "p1", "t1", "c1", ⟨"", "", "", ""⟩⟩,
         ⟨2, 10, "s", "p2", "t2", "c2", ⟨"", "", "", ""⟩⟩] 2 =
      some [⟨0, "p0", 9, "00:00", "s", "", "c0", ""⟩,
            ⟨10, "p2", 7, "00:10", "s", "", "c2", ""⟩]) ∧
    (([⟨0, "p0", 9, "00:00", "s", "", "c0", ""⟩,
       ⟨10, "p2", 7, "00:10", "s", "", "c2", ""⟩] : List SearchResult).length ≤ 2 ∧
      List.Pairwise (fun a b => 3 < (a.second - b.second).natAbs)
        ([⟨0, "p0", 9, "00:00", "s", "", "c0", ""⟩,
          ⟨10, "p2", 7, "00:10", "s", "", "c2", ""⟩] : List SearchResult)) :=
  ⟨rfl,
    search_results_bounded_and_separated "actor" [(9, 0), (8, 1), (7, 2)]
      [⟨0, 0, "s", "p0", "t0", "c0", ⟨"", "", "", ""⟩⟩,
       ⟨1, 2, "s", "p1", "t1", "c1", ⟨"", "", "", ""⟩⟩,
       ⟨2, 10, "s", "p2", "t2", "c2", ⟨"", "", "", ""⟩⟩] 2
      [⟨0, "p0", 9, "00:00", "s", "", "c0", ""⟩,
       ⟨10, "p2", 7, "00:10", "s", "", "c2", ""⟩] rfl⟩

/-! ### Multi-query merge of search_with_answer -/

/-- Python dict assignment d[k] = v: replace in place if the key exists,
append otherwise (dicts preserve insertion order). -/
def dictSet : List (Int × SearchResult) → Int → SearchResult → List (Int × SearchResult)
  | [], k, v => [(k, v)]
  | (k0, v0) :: rest, k, v =>
    if k0 = k then (k0, v) :: rest else (k0, v0) :: dictSet rest k v

/-- The merge step of search_with_answer: store a candidate under its
second unless an already-stored candidate for that second has a score at
least as high. -/
def considerCandidate (m : List (Int × SearchResult)) (r : SearchResult) :
    List (Int × SearchResult) :=
  match List.lookup r.second m with
  | none => dictSet m r.second r
  | some old => if old.score < r.score then dictSet m r.second r else m

/-- The all_candidates map of search_with_answer: fold every variant's
result list through the merge step. -/
def mergeCandidates (variantResults : List (List SearchResult)) :
    List (Int × SearchResult) :=
  variantResults.foldl (fun acc results => results.foldl considerCandidate acc) []

/-- Reference step on the value stored for one fixed key S. -/
def considerStep (S : Int) : Option SearchResult → SearchResult → Option SearchResult
  | none, r => if r.second = S then some r else none
  | some v, r =>
    if r.second = S then (if v.score < r.score then some r else some v) else some v

/-- Reference fold on the value stored for one fixed key S. -/
def bestUpd (S : Int) (acc : Option SearchResult) (rs : List SearchResult) :
    Option SearchResult :=
  rs.foldl (considerStep S) acc

theorem lookup_dictSet_self :
    ∀ (m : List (Int × SearchResult)) (k : Int) (v : SearchResult),
      List.lookup k (dictSet m k v) = some v := by
  intro m
  induction m with
  | nil => intro k v; simp [dictSet, List.lookup]
  | cons kv rest ih =>
    intro k v
    obtain ⟨k0, v0⟩ := kv
    rw [dictSet]
    by_cases hk : k0 = k
    · rw [if_pos hk]
      subst hk
      simp [List.lookup]
    · rw [if_neg hk]
      have hb : (k == k0) = false := by
        simp only [beq_eq_false_iff_ne, ne_eq]
        exact fun he => hk he.symm
      simp [List.lookup, hb, ih]

theorem lookup_dictSet_ne :
    ∀ (m : List (Int × SearchResult)) (k : Int) (v : SearchResult) (S : Int), S ≠ k →
      List.lookup S (dictSet m k v) = List.lookup S m := by
  intro m
  induction m with
  | nil =>
    intro k v S hne
    have hb : (S == k) = false := by simpa using hne
    simp [dictSet, List.lookup, hb]
  | cons kv rest ih =>
    intro k v S hne
    obtain ⟨k0, v0⟩ := kv
    rw [dictSet]
    by_cases hk : k0 = k
    · rw [if_pos hk]
      subst hk
      have hb : (S == k0) = false := by simpa using hne
      simp [List.lookup, hb]
    · rw [if_neg hk]
      by_cases hS : S = k0
      · subst hS
        simp [List.lookup]
      · have hb : (S == k0) = false := by simpa using hS
        simp [List.lookup, hb, ih k v S hne]

theorem lookup_considerCandidate (m : List (Int × SearchResult)) (r : SearchResult)
    (S : Int) :
    List.lookup S (considerCandidate m r) = considerStep S (List.lookup S m) r := by
  by_cases hr : r.second = S
  · subst hr
    cases hm : List.lookup r.second m with
    | none =>
      have hcc : considerCandidate m r = dictSet m r.second r := by
        simp only [considerCandidate, hm]
      rw [hcc, lookup_dictSet_self]
      simp [considerStep]
    | some old =>
      by_cases hsc : old.score < r.score
      · have hcc : considerCandidate m r = dictSet m r.second r := by
          simp only [considerCandidate, hm, if_pos hsc]
        rw [hcc, lookup_dictSet_self]
        simp [considerStep, hsc]
      · have hcc : considerCandidate m r = m := by
          simp only [considerCandidate, hm, if_neg hsc]
        rw [hcc, hm]
        simp [considerStep, hsc]
  · have hunch : List.lookup S (considerCandidate m r) = List.lookup S m := by
      cases hm : List.lookup r.second m with
      | none =>
        have hcc : considerCandidate m r = dictSet m r.second r := by
          simp only [considerCandidate, hm]
        rw [hcc, lookup_dictSet_ne m r.second r S (Ne.symm hr)]
      | some old =>
        by_cases hsc : old.score < r.score
        · have hcc : considerCandidate m r = dictSet m r.second r := by
            simp only [considerCandidate, hm, if_pos hsc]
          rw [hcc, lookup_dictSet_ne m r.second r S (Ne.symm hr)]
        · have hcc : considerCandidate m r = m := by
            simp only [considerCandidate, hm, if_neg hsc]
          rw [hcc]
    rw [hunch]
    cases hsm : List.lookup S m with
    | none => simp [considerStep, hr]
    | some w => simp [considerStep, hr]

theorem lookup_foldl_consider :
    ∀ (rs : List SearchResult) (m : List (Int × SearchResult)) (S : Int),
      List.lookup S (rs.foldl considerCandidate m) = bestUpd S (List.lookup S m) rs := by
  intro rs
  induction rs with
  | nil => intro m S; rfl
  | cons r rest ih =>
    intro m S
    rw [List.foldl_cons]
    rw [ih (considerCandidate m r) S, lookup_considerCandidate]
    rfl

theorem foldl_consider_join :
    ∀ (L : List (List SearchResult)) (m : List (Int × SearchResult)),
      L.foldl (fun acc results => results.foldl considerCandidate acc) m =
        L.flatten.foldl considerCandidate m := by
  intro L
  induction L with
  | nil => intro m; rfl
  | cons l rest ih =>
    intro m
    rw [List.foldl_cons, ih, List.flatten_cons, List.foldl_append]

theorem bestUpd_none :
    ∀ (rs : List SearchResult) (S : Int) (acc : Option SearchResult),
      bestUpd S acc rs = none → acc = none ∧ ∀ r ∈ rs, r.second ≠ S := by
  intro rs
  induction rs with
  | nil =>
    intro S acc h
    exact ⟨h, by simp⟩
  | cons r rest ih =>
    intro S acc h
    rw [bestUpd, List.foldl_cons] at h
    obtain ⟨hstep, hrest⟩ := ih S (considerStep S acc r) h
    have hacc : acc = none ∧ r.second ≠ S := by
      cases acc with
      | none =>
        refine ⟨rfl, ?_⟩
        intro hsec
        simp only [considerStep] at hstep
        rw [if_pos hsec] at hstep
        exact absurd hstep (by simp)
      | some w =>
        exfalso
        simp only [considerStep] at hstep
        by_cases hsec : r.second = S
        · rw [if_pos hsec] at hstep
          by_cases hsc : w.score < r.score
          · rw [if_pos hsc] at hstep; exact absurd hstep (by simp)
          · rw [if_neg hsc] at hstep; exact absurd hstep (by simp)
        · rw [if_neg hsec] at hstep
          exact absurd hstep (by simp)
    refine ⟨hacc.1, ?_⟩
    intro x hx
    rcases List.mem_cons.mp hx with hxr | hxrest
    · subst hxr; exact hacc.2
    · exact hrest x hxrest

theorem bestUpd_provenance :
    ∀ (rs : List SearchResult) (S : Int) (acc : Option SearchResult) (v : SearchResult),
      bestUpd S acc rs = some v →
      acc = some v ∨ (v ∈ rs ∧ v.second = S) := by
  intro rs
  induction rs with
  | nil => intro S acc v h; exact Or.inl h
  | cons r rest ih =>
    intro S acc v h
    rw [bestUpd, List.foldl_cons] at h
    rcases ih S (considerStep S acc r) v h with hstep | ⟨hmem, hsec⟩
    · cases acc with
      | none =>
        simp only [considerStep] at hstep
        by_cases hsec : r.second = S
        · rw [if_pos hsec] at hstep
          obtain rfl := Option.some.inj hstep
          exact Or.inr ⟨List.mem_cons_self r rest, hsec⟩
        · rw [if_neg hsec] at hstep
          exact absurd hstep (by simp)
      | some w =>
        simp only [considerStep] at hstep
        by_cases hsec : r.second = S
        · rw [if_pos hsec] at hstep
          by_cases hsc : w.score < r.score
          · rw [if_pos hsc] at hstep
            obtain rfl := Option.some.inj hstep
            exact Or.inr ⟨List.mem_cons_self r rest, hsec⟩
          · rw [if_neg hsc] at hstep
            exact Or.inl hstep
        · rw [if_neg hsec] at hstep
          exact Or.inl hstep
    · exact Or.inr ⟨List.mem_cons_of_mem r hmem, hsec⟩

theorem bestUpd_max :
    ∀ (rs : List SearchResult) (S : Int) (acc : Option SearchResult) (v : SearchResult),
      bestUpd S acc rs = some v →
      (∀ r ∈ rs, r.second = S → r.score ≤ v.score) ∧
      (∀ w, acc = some w → w.score ≤ v.score) := by
  intro rs
  induction rs with
  | nil =>
    intro S acc v h
    refine ⟨by simp, ?_⟩
    intro w hw
    rw [hw] at h
    obtain rfl := Option.some.inj h
    exact le_refl _
  | cons r rest ih =>
    intro S acc v h
    rw [bestUpd, List.foldl_cons] at h
    obtain ⟨ihrest, ihacc⟩ := ih S (considerStep S acc r) v h
    have hstep_ge : ∀ u, considerStep S acc r = some u →
        (r.second = S → r.score ≤ u.score) ∧ (∀ w, acc = some w → w.score ≤ u.score) := by
      intro u hu
      cases acc with
      | none =>
        simp only [considerStep] at hu
        by_cases hsec : r.second = S
        · rw [if_pos hsec] at hu
          obtain rfl := Option.some.inj hu
          exact ⟨fun _ => le_refl _, by simp⟩
        · rw [if_neg hsec] at hu
          exact absurd hu (by simp)
      | some w =>
        simp only [considerStep] at hu
        by_cases hsec : r.second = S
        · rw [if_pos hsec] at hu
          by_cases hsc : w.score < r.score
          · rw [if_pos hsc] at hu
            obtain rfl := Option.some.inj hu
            refine ⟨fun _ => le_refl _, ?_⟩
            intro w2 hw2
            obtain rfl := Option.some.inj hw2
            omega
          · rw [if_neg hsc] at hu
            obtain rfl := Option.some.inj hu
            refine ⟨fun _ => by omega, ?_⟩
            intro w2 hw2
            obtain rfl := Option.some.inj hw2
            exact le_refl _
        · rw [if_neg hsec] at hu
          obtain rfl := Option.some.inj hu
          refine ⟨fun hc => absurd hc hsec, ?_⟩
          intro w2 hw2
          obtain rfl := Option.some.inj hw2
          exact le_refl _
    constructor
    · intro x hx hxsec
      rcases List.mem_cons.mp hx with hxr | hxrest
      · subst hxr
        cases hcs : considerStep S acc x with
        | none =>
          exfalso
          cases acc with
          | none =>
            simp only [considerStep] at hcs
            rw [if_pos hxsec] at hcs
            exact absurd hcs (by simp)
          | some w =>
            simp only [considerStep] at hcs
            rw [if_pos hxsec] at hcs
            by_cases hsc : w.score < x.score
            · rw [if_pos hsc] at hcs; exact absurd hcs (by simp)
            · rw [if_neg hsc] at hcs; exact absurd hcs (by simp)
        | some u =>
          have h1 := (hstep_ge u hcs).1 hxsec
          have h2 := ihacc u hcs
          omega
      · exact ihrest x hxrest hxsec
    · intro w hw
      cases hcs : considerStep S acc r with
      | none =>
        exfalso
        subst hw
        simp only [considerStep] at hcs
        by_cases hsec : r.second = S
        · rw [if_pos hsec] at hcs
          by_cases hsc : w.score < r.score
          · rw [if_pos hsc] at hcs; exact absurd hcs (by simp)
          · rw [if_neg hsc] at hcs; exact absurd hcs (by simp)
        · rw [if_neg hsec] at hcs
          exact absurd hcs (by simp)
      | some u =>
        have h1 := (hstep_ge u hcs).2 w hw
        have h2 := ihacc u hcs
        omega

/-- C3: in the multi-query merge of search_with_answer, the merged map
keyed by second retains, for every second S that occurs among the
variants' candidates, a candidate for S whose score is maximal over all
candidates for S; in particular, when S occurs with scores s1 < s2 under
two variants, the merged entry carries s2. -/
theorem merge_keeps_higher_score (lists : List (List SearchResult)) (S : Int)
    (hex : ∃ r ∈ lists.flatten, r.second = S) :
    ∃ v, List.lookup S (mergeCandidates lists) = some v ∧
      v ∈ lists.flatten ∧ v.second = S ∧
      ∀ r ∈ lists.flatten, r.second = S → r.score ≤ v.score := by
  have hfold : List.lookup S (mergeCandidates lists) = bestUpd S none lists.flatten := by
    rw [mergeCandidates, foldl_consider_join, lookup_foldl_consider]
    rfl
  cases hres : bestUpd S none lists.flatten with
  | none =>
    obtain ⟨r, hr, hrs⟩ := hex
    exact absurd hrs ((bestUpd_none lists.flatten S none hres).2 r hr)
  | some v =>
    refine ⟨v, by rw [hfold, hres], ?_, ?_⟩
    · rcases bestUpd_provenance lists.flatten S none v hres with habs | ⟨hmem, _⟩
      · exact absurd habs (by simp)
      · exact hmem
    · refine ⟨?_, (bestUpd_max lists.flatten S none v hres).1⟩
      rcases bestUpd_provenance lists.flatten S none v hres with habs | ⟨_, hsec⟩
      · exact absurd habs (by simp)
      · exact hsec

/-- Witness for C3: second 5 occurs in two variant result lists with
scores 1 and 9; the merged entry carries the score-9 candidate. -/
theorem merge_keeps_higher_score_witness :
    (∃ r ∈ ([[⟨5, "p", 1, "00:05", "s", "", "", ""⟩],
             [⟨5, "p", 9, "00:05", "s", "", "", ""⟩]] : List (List SearchResult)).flatten,
      r.second = 5) ∧
    (∃ v, List.lookup 5 (mergeCandidates
          [[⟨5, "p", 1, "00:05", "s", "", "", ""⟩],
           [⟨5, "p", 9, "00:05", "s", "", "", ""⟩]]) = some v ∧
      v ∈ ([[⟨5, "p", 1, "00:05", "s", "", "", ""⟩],
            [⟨5, "p", 9, "00:05", "s", "", "", ""⟩]] : List (List SearchResult)).flatten ∧
      v.second = 5 ∧
      ∀ r ∈ ([[⟨5, "p", 1, "00:05", "s", "", "", ""⟩],
              [⟨5, "p", 9, "00:05", "s", "", "", ""⟩]] : List (List SearchResult)).flatten,
        r.second = 5 → r.score ≤ v.score) :=
  ⟨by decide,
    merge_keeps_higher_score
      [[⟨5, "p", 1, "00:05", "s", "", "", ""⟩],
       [⟨5, "p", 9, "00:05", "s", "", "", ""⟩]] 5 (by decide)⟩

/-! ### RetrieverService._generate_answer -/

/-- The bundle returned by _generate_answer / search_with_answer. -/
structure AnswerBundle where
  answer : String
  relevant_moments : List SearchResult
  found_count : Nat
deriving DecidableEq, Repr, Inhabited

/-- Canned answer for an empty candidate list. -/
def noMomentsAnswer : String :=
  "I couldn\x27t find any relevant moments in the video that match your query. Try rephrasing or asking about something else."

/-- Fallback answer used when the answer-generation call raises. -/
def fallbackAnswer (query : String) (n : Nat) : String :=
  "I found " ++ toString n ++ " moment(s) that might be relevant to \x27" ++ query ++
    "\x27. Please review them to see if they match what you\x27re looking for."

/-- Disclaimer prepended when the model selected no relevant moment but
candidates exist. -/
def weakMatchAnswer (query answer_line : String) : String :=
  "While I found some moments, they don\x27t closely match \x27" ++ query ++
    "\x27. Here\x27s the closest match, but consider refining your search. " ++ answer_line

/-- One line of the response scan: the last line bearing each prefix
wins, lines bearing neither leave the accumulator unchanged. -/
def parseStep (acc : String × String) (line : String) : String × String :=
  if pyStartsWith line "ANSWER:" then (pyStrip (pyReplace line "ANSWER:" ""), acc.2)
  else if pyStartsWith line "RELEVANT:" then (acc.1, pyStrip (pyReplace line "RELEVANT:" ""))
  else acc

/-- The line scan of _generate_answer for the ANSWER: and RELEVANT:
prefixes. -/
def parseLines (response_text : String) : String × String :=
  (pySplit response_text '\n').foldl parseStep ("", "")

/-- The not-in-expected-format default of _generate_answer: when no
ANSWER: line was found, the whole response becomes the answer and the
RELEVANT field defaults to 1. -/
def effectiveParse (response_text : String) : String × String :=
  let parsed := parseLines response_text
  if parsed.1 = "" then (response_text, "1") else parsed

/-- Parse the RELEVANT field into 0-based indices: unless the field says
none, split on commas and keep the digit-only tokens minus one.  (The
inner int() cannot fail on ASCII-digit tokens, so the except branch
defaulting to the first result is unreachable in this model.) -/
def parseRelevantIndices (relevant_line : String) : List Int :=
  if pyLower relevant_line ≠ "none" then
    (pySplit relevant_line ',').filterMap (fun x =>
      if pyIsDigit (pyStrip x) then some ((digitsToNat (pyStrip x).data : Int) - 1)
      else none)
  else []

/-- Keep the candidates at in-range parsed indices, in index order. -/
def selectMoments (results : List SearchResult) (indices : List Int) :
    List SearchResult :=
  indices.filterMap (fun i =>
    if 0 ≤ i ∧ i < (results.length : Int) then results[i.toNat]? else none)

/-- The parse-and-select path of _generate_answer for a returned
response text (the whole try block after the generation call). -/
def generate_answer_ok (query : String) (results : List SearchResult) (raw : String) :
    AnswerBundle :=
  let response_text := pyStrip raw
  let parsed := effectiveParse response_text
  let relevant_indices := parseRelevantIndices parsed.2
  let relevant_moments :=
    sortBy (fun a b => decide (a.second ≤ b.second)) (selectMoments results relevant_indices)
  if relevant_moments.isEmpty then
    { answer := weakMatchAnswer query parsed.1
      relevant_moments := [results.headI]
      found_count := 1 }
  else
    { answer := parsed.1
      relevant_moments := relevant_moments
      found_count := relevant_moments.length }

/-- RetrieverService._generate_answer.  The answer-generation call is
abstracted as an Except: error models any raised exception, ok carries
the response text.  The role argument only shapes the prompt sent to the
generator, which the abstraction absorbs. -/
def generate_answer (query role : String) (results : List SearchResult)
    (response : Except Unit String) : AnswerBundle :=
  if results.isEmpty then
    { answer := noMomentsAnswer, relevant_moments := [], found_count := 0 }
  else
    match response with
    | .error _ =>
      { answer := fallbackAnswer query results.length
        relevant_moments := results.take 3
        found_count := (results.take 3).length }
    | .ok raw => generate_answer_ok query results raw

/-- RetrieverService.search_with_answer: expand the query, search each
variant (searchFn abstracts self.search with top_k=10 for one variant),
merge by second keeping the higher score, keep the top_k best by score,
re-sort chronologically, and synthesize the answer. -/
def search_with_answer (searchFn : String → List SearchResult) (query role : String)
    (top_k : Nat) (response : Except Unit String) : AnswerBundle :=
  let expanded_queries := expand_query query role
  let all_candidates := mergeCandidates (expanded_queries.map searchFn)
  let raw_results :=
    (sortBy (fun a b => decide (b.score ≤ a.score)) (all_candidates.map Prod.snd)).take top_k
  generate_answer query role
    (sortBy (fun a b => decide (a.second ≤ b.second)) raw_results) response

/-! ### main.py chat endpoint -/

/-- The ChatRequest model of main.py (role and top_k carry defaults). -/
structure ChatRequest where
  query : String
  video_id : String
  role : String := "actor"
  top_k : Nat := 5
deriving DecidableEq, Repr

/-- The top_k adjustment in the chat endpoint: producer requests whose
top_k equals the default 5 are widened to 15; everything else passes
through to search_with_answer unchanged. -/
def chat_effective_top_k (request : ChatRequest) : Nat :=
  if request.role = "producer" ∧ request.top_k = 5 then 15 else request.top_k

/-! ### C9: fallback on a raised answer-generation call -/

/-- C9: if the answer-generation call raises, synthesis returns the
fallback bundle: a generic answer referencing the candidate count, the
first 3 candidates unfiltered, and a found_count equal to the number of
those returned moments. -/
theorem generate_answer_fallback_on_error (query role : String)
    (results : List SearchResult) (e : Unit) (hne : results ≠ []) :
    generate_answer query role results (.error e) =
      { answer := fallbackAnswer query results.length
        relevant_moments := results.take 3
        found_count := (results.take 3).length } ∧
    (results.take 3).length = min 3 results.length := by
  have hempty : results.isEmpty = false := by
    cases results with
    | nil => exact absurd rfl hne
    | cons a as => rfl
  constructor
  · simp [generate_answer, hempty]
  · simp [List.length_take]

/-- Witness for C9 with four candidates: exactly the first three are
returned. -/
theorem generate_answer_fallback_on_error_witness :
    (([⟨1, "p", 4, "00:01", "s", "", "", ""⟩, ⟨2, "p", 3, "00:02", "s", "", "", ""⟩,
       ⟨3, "p", 2, "00:03", "s", "", "", ""⟩, ⟨4, "p", 1, "00:04", "s", "", "", ""⟩] :
        List SearchResult) ≠ []) ∧
    (generate_answer "q" "actor"
        [⟨1, "p", 4, "00:01", "s", "", "", ""⟩, ⟨2, "p", 3, "00:02", "s", "", "", ""⟩,
         ⟨3, "p", 2, "00:03", "s", "", "", ""⟩, ⟨4, "p", 1, "00:04", "s", "", "", ""⟩]
        (.error ()) =
      { answer := fallbackAnswer "q"
          ([⟨1, "p", 4, "00:01", "s", "", "", ""⟩, ⟨2, "p", 3, "00:02", "s", "", "", ""⟩,
            ⟨3, "p", 2, "00:03", "s", "", "", ""⟩, ⟨4, "p", 1, "00:04", "s", "", "", ""⟩] :
              List SearchResult).length
        relevant_moments :=
          ([⟨1, "p", 4, "00:01", "s", "", "", ""⟩, ⟨2, "p", 3, "00:02", "s", "", "", ""⟩,
            ⟨3, "p", 2, "00:03", "s", "", "", ""⟩, ⟨4, "p", 1, "00:04", "s", "", "", ""⟩] :
              List SearchResult).take 3
        found_count :=
          (([⟨1, "p", 4, "00:01", "s", "", "", ""⟩, ⟨2, "p", 3, "00:02", "s", "", "", ""⟩,
             ⟨3, "p", 2, "00:03", "s", "", "", ""⟩, ⟨4, "p", 1, "00:04", "s", "", "", ""⟩] :
              List SearchResult).take 3).length } ∧
      (([⟨1, "p", 4, "00:01", "s", "", "", ""⟩, ⟨2, "p", 3, "00:02", "s", "", "", ""⟩,
         ⟨3, "p", 2, "00:03", "s", "", "", ""⟩, ⟨4, "p", 1, "00:04", "s", "", "", ""⟩] :
          List SearchResult).take 3).length =
        min 3 ([⟨1, "p", 4, "00:01", "s", "", "", ""⟩, ⟨2, "p", 3, "00:02", "s", "", "", ""⟩,
          ⟨3, "p", 2, "00:03", "s", "", "", ""⟩, ⟨4, "p", 1, "00:04", "s", "", "", ""⟩] :
            List SearchResult).length) :=
  ⟨by decide,
    generate_answer_fallback_on_error "q" "actor"
      [⟨1, "p", 4, "00:01", "s", "", "", ""⟩, ⟨2, "p", 3, "00:02", "s", "", "", ""⟩,
       ⟨3, "p", 2, "00:03", "s", "", "", ""⟩, ⟨4, "p", 1, "00:04", "s", "", "", ""⟩]
      () (by decide)⟩

/-! ### C10: response without the expected prefixes -/

theorem parseStep_id (acc : String × String) (line : String)
    (h1 : pyStartsWith line "ANSWER:" = false)
    (h2 : pyStartsWith line "RELEVANT:" = false) :
    parseStep acc line = acc := by
  simp [parseStep, h1, h2]

theorem foldl_parseStep_id :
    ∀ (ls : List String) (acc : String × String),
      (∀ line ∈ ls, pyStartsWith line "ANSWER:" = false ∧
        pyStartsWith line "RELEVANT:" = false) →
      ls.foldl parseStep acc = acc := by
  intro ls
  induction ls with
  | nil => intro acc _; rfl
  | cons line rest ih =>
    intro acc h
    rw [List.foldl_cons,
      parseStep_id acc line (h line (List.mem_cons_self line rest)).1
        (h line (List.mem_cons_self line rest)).2]
    exact ih acc (fun l hl => h l (List.mem_cons_of_mem line hl))

theorem parseLines_no_prefixes (response_text : String)
    (h : ∀ line ∈ pySplit response_text '\n',
      pyStartsWith line "ANSWER:" = false ∧ pyStartsWith line "RELEVANT:" = false) :
    parseLines response_text = ("", "") := by
  rw [parseLines]
  exact foldl_parseStep_id (pySplit response_text '\n') ("", "") h

theorem selectMoments_zero (results : List SearchResult) (hne : results ≠ []) :
    selectMoments results [0] = [results.headI] := by
  cases results with
  | nil => exact absurd rfl hne
  | cons a as =>
    rw [selectMoments]
    have hcond : (0 : Int) ≤ 0 ∧ (0 : Int) < ((a :: as).length : Int) := by
      constructor
      · exact le_refl 0
      · rw [List.length_cons]
        omega
    simp [hcond, List.headI]

/-- C10: if the response contains no line starting with the ANSWER:
prefix and none starting with the RELEVANT: prefix, the whole (stripped)
response becomes the answer, the RELEVANT field defaults to 1, and the
first candidate is returned as the single relevant moment. -/
theorem generate_answer_no_prefix_default (query role raw : String)
    (results : List SearchResult) (hne : results ≠ [])
    (hlines : ∀ line ∈ pySplit (pyStrip raw) '\n',
      pyStartsWith line "ANSWER:" = false ∧ pyStartsWith line "RELEVANT:" = false) :
    generate_answer query role results (.ok raw) =
      { answer := pyStrip raw, relevant_moments := [results.headI], found_count := 1 } := by
  have hempty : results.isEmpty = false := by
    cases results with
    | nil => exact absurd rfl hne
    | cons a as => rfl
  have hga : generate_answer query role results (.ok raw) =
      generate_answer_ok query results raw := by
    simp [generate_answer, hempty]
  rw [hga]
  have heff : effectiveParse (pyStrip raw) = (pyStrip raw, "1") := by
    rw [effectiveParse, parseLines_no_prefixes (pyStrip raw) hlines]
    rfl
  have hind : parseRelevantIndices "1" = [0] := by decide
  rw [generate_answer_ok]
  rw [heff]
  simp only
  rw [hind, selectMoments_zero results hne]
  have hsort : sortBy (fun a b => decide (a.second ≤ b.second)) [results.headI] =
      [results.headI] := rfl
  rw [hsort]
  rfl

/-- Witness for C10 on a two-line response bearing neither prefix. -/
theorem generate_answer_no_prefix_default_witness :
    (([⟨1, "p", 4, "00:01", "s", "", "", ""⟩, ⟨2, "p", 3, "00:02", "s", "", "", ""⟩] :
        List SearchResult) ≠ []) ∧
    (∀ line ∈ pySplit (pyStrip "hello there\nno labels here") '\n',
      pyStartsWith line "ANSWER:" = false ∧ pyStartsWith line "RELEVANT:" = false) ∧
    (generate_answer "q" "actor"
        [⟨1, "p", 4, "00:01", "s", "", "", ""⟩, ⟨2, "p", 3, "00:02", "s", "", "", ""⟩]
        (.ok "hello there\nno labels here") =
      { answer := pyStrip "hello there\nno labels here"
        relevant_moments :=
          [([⟨1, "p", 4, "00:01", "s", "", "", ""⟩, ⟨2, "p", 3, "00:02", "s", "", "", ""⟩] :
              List SearchResult).headI]
        found_count := 1 }) :=
  ⟨by decide, by decide,
    generate_answer_no_prefix_default "q" "actor" "hello there\nno labels here"
      [⟨1, "p", 4, "00:01", "s", "", "", ""⟩, ⟨2, "p", 3, "00:02", "s", "", "", ""⟩]
      (by decide) (by decide)⟩

/-! ### C6: empty parsed relevant set with non-empty candidates -/

/-- Counterexample to C6 as stated: with candidates at seconds 5 and 10
carrying scores 1 and 9 (the list is ordered by second, as
search_with_answer orders it), and a response whose RELEVANT field is
none, the parsed relevant set is empty, yet the returned moment is the
score-1 candidate at second 5 — not the top-scoring candidate. -/
theorem generate_answer_weak_match_counterexample :
    (selectMoments
        [⟨5, "p", 1, "00:05", "s", "", "", ""⟩, ⟨10, "p", 9, "00:10", "s", "", "", ""⟩]
        (parseRelevantIndices
          (effectiveParse (pyStrip "ANSWER: no match\nRELEVANT: none")).2) = []) ∧
    ((generate_answer "q" "actor"
        [⟨5, "p", 1, "00:05", "s", "", "", ""⟩, ⟨10, "p", 9, "00:10", "s", "", "", ""⟩]
        (.ok "ANSWER: no match\nRELEVANT: none")).relevant_moments =
      [⟨5, "p", 1, "00:05", "s", "", "", ""⟩]) ∧
    ((⟨5, "p", 1, "00:05", "s", "", "", ""⟩ : SearchResult).score <
      (⟨10, "p", 9, "00:10", "s", "", "", ""⟩ : SearchResult).score) ∧
    ((⟨10, "p", 9, "00:10", "s", "", "", ""⟩ : SearchResult) ∈
      ([⟨5, "p", 1, "00:05", "s", "", "", ""⟩, ⟨10, "p", 9, "00:10", "s", "", "", ""⟩] :
        List SearchResult)) ∧
    ((generate_answer "q" "actor"
        [⟨5, "p", 1, "00:05", "s", "", "", ""⟩, ⟨10, "p", 9, "00:10", "s", "", "", ""⟩]
        (.ok "ANSWER: no match\nRELEVANT: none")).relevant_moments ≠
      [⟨10, "p", 9, "00:10", "s", "", "", ""⟩]) := by
  decide

/-- C6 amended: if the parsed relevant set is empty but the candidate
list is non-empty, the returned relevant_moments consist of exactly one
candidate, namely the first candidate of the input list (the
chronologically earliest, since search_with_answer passes the list
sorted by second — not the top-scoring one), and the answer is prefixed
with the weak-match disclaimer. -/
theorem generate_answer_weak_match_first_candidate (query role raw : String)
    (results : List SearchResult) (hne : results ≠ [])
    (hsel : selectMoments results
      (parseRelevantIndices (effectiveParse (pyStrip raw)).2) = []) :
    generate_answer query role results (.ok raw) =
      { answer := weakMatchAnswer query (effectiveParse (pyStrip raw)).1
        relevant_moments := [results.headI]
        found_count := 1 } := by
  have hempty : results.isEmpty = false := by
    cases results with
    | nil => exact absurd rfl hne
    | cons a as => rfl
  have hga : generate_answer query role results (.ok raw) =
      generate_answer_ok query results raw := by
    simp [generate_answer, hempty]
  rw [hga, generate_answer_ok]
  simp only [hsel]
  rfl

/-- Witness for the amended C6. -/
theorem generate_answer_weak_match_first_candidate_witness :
    (([⟨5, "p", 1, "00:05", "s", "", "", ""⟩, ⟨10, "p", 9, "00:10", "s", "", "", ""⟩] :
        List SearchResult) ≠ []) ∧
    (selectMoments
        [⟨5, "p", 1, "00:05", "s", "", "", ""⟩, ⟨10, "p", 9, "00:10", "s", "", "", ""⟩]
        (parseRelevantIndices
          (effectiveParse (pyStrip "ANSWER: nothing fits\nRELEVANT: none")).2) = []) ∧
    (generate_answer "beach" "actor"
        [⟨5, "p", 1, "00:05", "s", "", "", ""⟩, ⟨10, "p", 9, "00:10", "s", "", "", ""⟩]
        (.ok "ANSWER: nothing fits\nRELEVANT: none") =
      { answer := weakMatchAnswer "beach"
          (effectiveParse (pyStrip "ANSWER: nothing fits\nRELEVANT: none")).1
        relevant_moments :=
          [([⟨5, "p", 1, "00:05", "s", "", "", ""⟩, ⟨10, "p", 9, "00:10", "s", "", "", ""⟩] :
              List SearchResult).headI]
        found_count := 1 }) :=
  ⟨by decide, by decide,
    generate_answer_weak_match_first_candidate "beach" "actor"
      "ANSWER: nothing fits\nRELEVANT: none"
      [⟨5, "p", 1, "00:05", "s", "", "", ""⟩, ⟨10, "p", 9, "00:10", "s", "", "", ""⟩]
      (by decide) (by decide)⟩

/-! ### C8: top_k defaulting in the chat endpoint -/

/-- C8: the result-count limit is caller-specified with default 5; when
the role is producer and the request carries the default value 5, the
effective top_k becomes 15; any other combination passes the requested
top_k through unchanged. -/
theorem chat_top_k_selection :
    (∀ q v, ({ query := q, video_id := v } : ChatRequest).top_k = 5) ∧
    (∀ req : ChatRequest, req.role = "producer" → req.top_k = 5 →
      chat_effective_top_k req = 15) ∧
    (∀ req : ChatRequest, req.role ≠ "producer" →
      chat_effective_top_k req = req.top_k) ∧
    (∀ req : ChatRequest, req.top_k ≠ 5 →
      chat_effective_top_k req = req.top_k) := by
  refine ⟨fun q v => rfl, ?_, ?_, ?_⟩
  · intro req h1 h2
    simp [chat_effective_top_k, h1, h2]
  · intro req h1
    simp [chat_effective_top_k, h1]
  · intro req h1
    simp [chat_effective_top_k, h1]

/-- Witness for C8: a producer request at the default 5 widens to 15, a
non-producer request passes through, and the model default is 5. -/
theorem chat_top_k_selection_witness :
    chat_effective_top_k ⟨"q", "v", "producer", 5⟩ = 15 ∧
    chat_effective_top_k ⟨"q", "v", "actor", 7⟩ = 7 ∧
    ({ query := "q", video_id := "v" } : ChatRequest).top_k = 5 :=
  ⟨chat_top_k_selection.2.1 ⟨"q", "v", "producer", 5⟩ (by decide) (by decide),
   chat_top_k_selection.2.2.1 ⟨"q", "v", "actor", 7⟩ (by decide),
   chat_top_k_selection.1 "q" "v"⟩

end CineAI
